import Mathlib

/-!
Verification of the progress orchestration and reconciliation engine of the
hackderiv dashboard (src/src/components/Dashboard.tsx).

The embedding below translates the state and the operations of the
`Dashboard` component:
  * `Agent`, `AnalysisResult`, `DashState` mirror the component state
    (`agents`, `allLogs`, `currentAgentIndex`, `result`, `claimedAmount`,
    `file`, `isAnalyzing`, and the `isAnalyzingRef` cancellation flag);
  * `simLoopAux` / `simulateAgentProgress` mirror the simulator loop
    (lines 143-175), with the cancellation flag reads abstracted as a
    boolean environment `env : Nat -> Bool` consumed at the two flag
    checks of each loop iteration (line 145 and the combined
    line 163 / line 167 mid-dwell check, which read the same monotone
    flag); the function also returns the list of intermediate states
    produced by each `setAgents` / `setAllLogs` / `setCurrentAgentIndex`
    call, in order, so that invariants over every observable state can be
    stated;
  * `dwellLoop` mirrors the inner polling wait (lines 160-165) on an
    idealized discrete clock where each `setTimeout(r, 100)` advances time
    by 100 ms;
  * `errorMessageFor` mirrors the non-success branch (lines 200-210),
    with `response.json()` modelled by an optional parsed body;
  * `reconcileSuccess` mirrors the success branch (lines 216-235),
    `reconcileFailure` the catch branch (lines 238-245), and
    `handleAnalyze` the guard and state reset (lines 177-187).
-/

/-- Stage status, from the `Agent` interface of Dashboard.tsx. -/
inductive AgentStatus where
  | pending
  | running
  | complete
  | error
deriving DecidableEq, Repr, Inhabited

/-- Per-stage state, from the `Agent` interface of Dashboard.tsx. -/
structure Agent where
  id : String
  icon : String
  name : String
  status : AgentStatus
  logs : List String
  thinkingText : String
deriving DecidableEq, Repr, Inhabited

/-- A flag of the analysis result, from the `AnalysisResult` interface.
Numeric fields are modelled as integers; no claim computes with them. -/
structure AnalysisFlag where
  layer : String
  severity : String
  description : String
  confidence : Int
deriving DecidableEq, Repr

/-- The authoritative risk-assessment record, from the `AnalysisResult`
interface of Dashboard.tsx. -/
structure AnalysisResult where
  risk_score : Int
  verdict : String
  flags : List AnalysisFlag
  explanation : String
  software_detected : Option String
  is_edited : Bool
  font_consistency_score : Int
  alignment_score : Int
deriving DecidableEq, Repr

/-- A per-stage record of the success payload (`data.agents` entries):
a name hint and an optional log list (`backendAgent.logs` may be absent,
which line 225 defaults with `|| []`). -/
structure BackendAgent where
  name : String
  logs : Option (List String)
deriving DecidableEq, Repr

/-- The parsed success payload: `{ analysis, agents?, logs? }`. -/
structure SuccessData where
  analysis : AnalysisResult
  agents : Option (List BackendAgent)
  logs : Option (List String)
deriving DecidableEq, Repr

/-- The component state of `Dashboard`, restricted to the fields the
orchestration engine reads or writes.  `file` is abstracted to the file
name (only its presence matters), `currentAgentIndex` is an integer with
-1 standing for "none", and `isAnalyzingRef` is the cancellation flag
(`isAnalyzingRef.current = false` means cancelled). -/
structure DashState where
  file : Option String
  result : Option AnalysisResult
  agents : List Agent
  allLogs : List String
  claimedAmount : String
  expectedBank : String
  currentAgentIndex : Int
  isAnalyzing : Bool
  isAnalyzingRef : Bool
deriving DecidableEq, Repr

/-- The initial `agents` state array of Dashboard.tsx (lines 63-67). -/
def initialAgents : List Agent :=
  [ { id := "meta", icon := "🕵️", name := "Agent Meta",
      status := .pending, logs := [], thinkingText := "" },
    { id := "privacy", icon := "🔒", name := "Agent Privacy",
      status := .pending, logs := [], thinkingText := "" },
    { id := "vision", icon := "🧠", name := "Agent Vision",
      status := .pending, logs := [], thinkingText := "" } ]

/-- The `agentNames` lookup of line 153; an id outside the map yields the
JavaScript string "undefined" when interpolated. -/
def agentDisplayName (id : String) : String :=
  if id = "meta" then "Agent Meta"
  else if id = "privacy" then "Agent Privacy"
  else if id = "vision" then "Agent Vision"
  else "undefined"

/-- The "initialized" line appended to the global log at line 157. -/
def initLine (a : Agent) : String :=
  a.icon ++ " " ++ agentDisplayName a.id ++ " initialized..."

/-- The "task completed" line appended to the global log at line 172. -/
def completeLine (a : Agent) : String :=
  a.icon ++ " " ++ agentDisplayName a.id ++ " task completed."

/-- The fixed done marker written to `thinkingText` on completion
(line 170 and line 226). -/
def doneMarker : String := "✓ Analysis Complete"

/-- The fixed failure narration written on the error path (line 242). -/
def failedMarker : String := "Analysis Failed"

/-- The failure line appended to each stage's logs on the error path
(line 244). -/
def terminatedLine : String := "❌ Agent process terminated unexpectedly."

/-- The single explanatory line appended to the global log on the error
path (line 239). -/
def errorLine (msg : String) : String := "❌ Error: " ++ msg

/-- The state update `prev.map((a, idx) => idx === i ? f(a) : a)` used by
every `setAgents` call inside the simulator loop. -/
def mapAtIdx : List Agent → Nat → (Agent → Agent) → List Agent
  | [], _, _ => []
  | a :: rest, 0, f => f a :: rest
  | a :: rest, i + 1, f => a :: mapAtIdx rest i f

/-- The number of stages currently in `running` status. -/
def runningCount (l : List Agent) : Nat :=
  l.countP (fun a => a.status = .running)

/-- The error branch of `handleAnalyze` (catch block, lines 236-249,
including the `finally`): stop the simulation, append one explanatory
line to the global log, and move every stage to `error` with the fixed
narration and an appended failure line. -/
def reconcileFailure (msg : String) (s : DashState) : DashState :=
  { s with
    isAnalyzingRef := false,
    allLogs := s.allLogs ++ [errorLine msg],
    agents := s.agents.map (fun a =>
      { a with
        status := .error,
        thinkingText := failedMarker,
        logs := a.logs ++ [terminatedLine] }),
    isAnalyzing := false }

/-- Case-insensitive JavaScript `String.prototype.includes` on the name
hint: line 221 tests `ba.name.toLowerCase().includes(a.id)`.  Containment
of the needle in the haystack, over character lists. -/
def charsStartWith : List Char → List Char → Bool
  | [], _ => true
  | _ :: _, [] => false
  | c :: cs, d :: ds => c == d && charsStartWith cs ds

/-- Substring containment, matching JavaScript `includes`. -/
def charsContain (needle : List Char) : List Char → Bool
  | [] => needle.isEmpty
  | d :: ds => charsStartWith needle (d :: ds) || charsContain needle ds

/-- String-level substring containment: `hay.includes needle`. -/
def strIncludes (hay needle : String) : Bool :=
  charsContain needle.data hay.data

/-- JavaScript `toLowerCase`, character by character (the name hints and
stage ids are ASCII). -/
def lowerString (s : String) : String :=
  ⟨s.data.map Char.toLower⟩

/-- The matching test of line 221: the lowercased backend name hint
contains the (already lowercase) stage id. -/
def matchesHint (ba : BackendAgent) (id : String) : Bool :=
  strIncludes (lowerString ba.name) id

/-- The success branch of `handleAnalyze` (lines 216-235 and the
`finally`): stop the simulation; when the payload carries `agents`,
rewrite each stage by the first name-matching record (status `complete`,
logs replaced, done marker) and leave unmatched stages untouched; when it
carries `logs`, replace the global log wholesale; store the analysis in
`result`. -/
def reconcileSuccess (data : SuccessData) (s : DashState) : DashState :=
  let s0 := { s with isAnalyzingRef := false }
  let s1 :=
    match data.agents with
    | some recs =>
        { s0 with agents := s0.agents.map (fun (a : Agent) =>
            match recs.find? (fun ba => matchesHint ba a.id) with
            | some ba =>
                { a with
                  status := .complete,
                  logs := ba.logs.getD [],
                  thinkingText := doneMarker }
            | none => a) }
    | none => s0
  let s2 :=
    match data.logs with
    | some ls => { s1 with allLogs := ls }
    | none => s1
  { s2 with result := some data.analysis, isAnalyzing := false }

/-- The outcome of the network call, as seen by `handleAnalyze`:
a transport failure (fetch rejects), a response object, or a success
response whose body fails to parse as JSON (line 213 throws). -/
structure HttpResponse where
  ok : Bool
  status : Nat
  statusText : String
  /-- Result of `response.json()` on the error path: `some` when the body
  parses, carrying the optional `detail` field; `none` when parsing
  throws. -/
  errJson : Option (Option String)
  /-- Result of `response.text()`. -/
  text : String
deriving DecidableEq, Repr

/-- The generic fallback message of line 201. -/
def genericMessage (r : HttpResponse) : String :=
  "HTTP Error " ++ toString r.status ++ ": " ++ r.statusText

/-- The error message chosen for a non-success response (lines 200-210):
start from the generic message; if the body parses as JSON and carries a
truthy `detail`, use it; only when parsing throws, fall back to the raw
text when it is non-empty. -/
def errorMessageFor (r : HttpResponse) : String :=
  match r.errJson with
  | some (some d) => if d ≠ "" then d else genericMessage r
  | some none => genericMessage r
  | none => if r.text ≠ "" then r.text else genericMessage r

/-- The three ways a run ends, per the try/catch of `handleAnalyze`. -/
inductive NetOutcome where
  | transportFail (msg : String)
  | badStatus (r : HttpResponse)
  | unparsableBody (msg : String)
  | success (data : SuccessData)
deriving Repr

/-- The message carried into the catch block for each failure outcome. -/
def failureMessage : NetOutcome → Option String
  | .transportFail msg => some msg
  | .badStatus r => some (errorMessageFor r)
  | .unparsableBody msg => some msg
  | .success _ => none

/-- The terminal state transform applied when the network outcome
arrives, to whatever state the simulator has produced by then. -/
def applyOutcome (o : NetOutcome) (s : DashState) : DashState :=
  match o with
  | .transportFail msg => reconcileFailure msg s
  | .badStatus r => reconcileFailure (errorMessageFor r) s
  | .unparsableBody msg => reconcileFailure msg s
  | .success data => reconcileSuccess data s

/-- One iteration structure of the simulator loop `simulateAgentProgress`
(lines 143-175), recursing over the suffix of the captured agents array
while `i` is the current index and `s` the live component state.  The
cancellation flag reads are abstracted as `env : Nat → Bool`
(`env n = true` means `isAnalyzingRef.current` read `true` at the n-th
flag check of the run): iteration `i` reads `env (2*i)` at the loop-head
check (line 145) and `env (2*i+1)` at the mid-dwell / post-dwell check
(lines 163 and 167, which read the same monotone flag with no mutation in
between).  The function returns every intermediate state produced by a
`setCurrentAgentIndex`, `setAgents` or `setAllLogs` call, in order,
together with the final state; the last trace entry is the final state
(after `setCurrentAgentIndex(-1)`, line 174). -/
def simLoopAux (env : Nat → Bool) :
    List Agent → Nat → DashState → List DashState × DashState
  | [], _, s =>
      let sEnd := { s with currentAgentIndex := -1 }
      ([sEnd], sEnd)
  | info :: rest, i, s =>
      if env (2 * i) then
        let sIdx := { s with currentAgentIndex := (i : Int) }
        let sRun := { sIdx with
          agents := mapAtIdx sIdx.agents i (fun a => { a with status := .running }) }
        let sLog := { sRun with allLogs := sRun.allLogs ++ [initLine info] }
        if env (2 * i + 1) then
          let sDone := { sLog with
            agents := mapAtIdx sLog.agents i
              (fun a => { a with status := .complete, thinkingText := doneMarker }) }
          let sLog2 := { sDone with allLogs := sDone.allLogs ++ [completeLine info] }
          let next := simLoopAux env rest (i + 1) sLog2
          (sIdx :: sRun :: sLog :: sDone :: sLog2 :: next.1, next.2)
        else
          let sEnd := { sLog with currentAgentIndex := -1 }
          ([sIdx, sRun, sLog, sEnd], sEnd)
      else
        let sEnd := { s with currentAgentIndex := -1 }
        ([sEnd], sEnd)

/-- The simulator entry point: iterate over the captured agents array
from index 0 (line 144).  `captured` is the `agents` array the closure
captured at render time; only its constant fields (`id`, `icon`) are
read. -/
def simulateAgentProgress (env : Nat → Bool) (captured : List Agent)
    (s : DashState) : List DashState × DashState :=
  simLoopAux env captured 0 s

/-- The inner dwell wait (lines 160-165) on an idealized discrete clock:
iteration `k` runs at `100 * k` milliseconds after the dwell start, first
testing the elapsed-time condition (line 162), then the cancellation flag
(line 163, `cancel t = true` meaning `isAnalyzingRef.current` is `false`
at time `t`), then sleeping exactly 100 ms.  Returns the iteration index
at which the loop exits; `fuel` bounds the recursion and is harmless as
soon as it covers the exit index. -/
def dwellLoop (waitTime : Nat) (cancel : Nat → Bool) :
    Nat → Nat → Nat
  | fuel, k =>
      match fuel with
      | 0 => k
      | fuel' + 1 =>
          if waitTime ≤ 100 * k || cancel (100 * k) then k
          else dwellLoop waitTime cancel fuel' (k + 1)

/-- The guard and reset at the head of `handleAnalyze` (lines 177-187):
with no file or an empty claimed amount the handler returns immediately
(second component `false`: no request is issued and no simulator is
started); otherwise it resets `result`, the global log, and every stage
to pending/empty, sets the in-progress flags, and launches the run.
`currentAgentIndex` is not written by this reset. -/
def handleAnalyze (s : DashState) : DashState × Bool :=
  if s.file.isNone || s.claimedAmount = "" then (s, false)
  else
    ({ s with
        isAnalyzing := true,
        isAnalyzingRef := true,
        result := none,
        allLogs := [],
        agents := s.agents.map (fun a =>
          { a with status := .pending, logs := [], thinkingText := "" }) },
      true)

/-- The component state right after the reset of `handleAnalyze`, for a
fresh first run with a selected file and a filled amount: this is the
state from which a run's simulator starts. -/
def runStartState : DashState :=
  { file := some "receipt.png",
    result := none,
    agents := initialAgents,
    allLogs := [],
    claimedAmount := "5000",
    expectedBank := "jazzcash",
    currentAgentIndex := -1,
    isAnalyzing := true,
    isAnalyzingRef := true }

/-- A mid-run state: the simulator has completed stage 0, is dwelling on
stage 1, and has written four global log lines.  Used to instantiate the
universally quantified theorems on a concrete interleaving. -/
def midRunState : DashState :=
  { file := some "receipt.png",
    result := none,
    agents :=
      [ { id := "meta", icon := "🕵️", name := "Agent Meta",
          status := .complete, logs := [], thinkingText := doneMarker },
        { id := "privacy", icon := "🔒", name := "Agent Privacy",
          status := .running, logs := [], thinkingText := "Running OCR text extraction..." },
        { id := "vision", icon := "🧠", name := "Agent Vision",
          status := .pending, logs := [], thinkingText := "" } ],
    allLogs :=
      [ "🕵️ Agent Meta initialized...",
        "🕵️ Agent Meta task completed.",
        "🔒 Agent Privacy initialized..." ],
    claimedAmount := "5000",
    expectedBank := "jazzcash",
    currentAgentIndex := 1,
    isAnalyzing := true,
    isAnalyzingRef := true }

/-- A concrete risk-assessment payload used by witnesses. -/
def sampleAnalysis : AnalysisResult :=
  { risk_score := 85,
    verdict := "HIGH RISK",
    flags := [ { layer := "vision", severity := "HIGH",
                 description := "Font inconsistency detected", confidence := 92 } ],
    explanation := "The receipt shows signs of digital editing.",
    software_detected := some "Photoshop",
    is_edited := true,
    font_consistency_score := 40,
    alignment_score := 55 }

/-- A concrete state reachable right after a failed run was reconciled
while the simulator was still mid-dwell on stage 1: `isAnalyzing` is
already false (the analyze button is enabled again) but the simulator
loop has not yet woken up to execute `setCurrentAgentIndex(-1)`, so
`currentAgentIndex` still reads 1. -/
def staleIndexState : DashState :=
  { file := some "receipt.png",
    result := none,
    agents := (midRunState.agents.map (fun a =>
      { a with status := .error, thinkingText := failedMarker,
               logs := a.logs ++ [terminatedLine] })),
    allLogs := midRunState.allLogs ++ [errorLine "Failed to fetch"],
    claimedAmount := "5000",
    expectedBank := "jazzcash",
    currentAgentIndex := 1,
    isAnalyzing := false,
    isAnalyzingRef := false }

/-- A concrete non-success response whose body parses as JSON but has no
`detail` field, while the raw text is non-empty. -/
def noDetailResponse : HttpResponse :=
  { ok := false,
    status := 500,
    statusText := "Internal Server Error",
    errJson := some none,
    text := "upstream failure detail" }

/-- A concrete non-success response with a structured `detail` field. -/
def detailResponse : HttpResponse :=
  { ok := false,
    status := 400,
    statusText := "Bad Request",
    errJson := some (some "Invalid image"),
    text := "" }

/-- A concrete per-stage record list: one record whose name hint matches
the `meta` stage only. -/
def sampleRecs : List BackendAgent :=
  [ { name := "Agent META scanner", logs := some ["meta log 1", "meta log 2"] } ]

/-- A concrete success payload with `sampleRecs` and without a global log
list. -/
def sampleSuccess : SuccessData :=
  { analysis := sampleAnalysis, agents := some sampleRecs, logs := none }

/-!
Theorems.  Each claim Cn of the specification is settled by the theorem
whose doc comment names it; general-purpose lemmas come first.
-/

/-- Sanity lemma: the identity indexed map is the identity. -/
theorem mapIdx_id_eq (l : List Agent) :
    l.mapIdx (fun _ a => a) = l := by
  induction l with
  | nil => rfl
  | cons a rest ih =>
    simpa [List.mapIdx_cons] using ih

/-- Sanity lemma: `mapAtIdx` is the positional form of the source's
indexed map `prev.map((a, idx) => idx === i ? f(a) : a)`. -/
theorem mapAtIdx_eq_mapIdx (l : List Agent) (i : Nat) (f : Agent → Agent) :
    mapAtIdx l i f = l.mapIdx (fun idx a => if idx = i then f a else a) := by
  induction l generalizing i with
  | nil => rfl
  | cons a rest ih =>
    cases i with
    | zero =>
      simpa [mapAtIdx, List.mapIdx_cons] using (mapIdx_id_eq rest).symm
    | succ i =>
      have hfun : (fun idx (b : Agent) => if idx + 1 = i + 1 then f b else b)
          = (fun idx (b : Agent) => if idx = i then f b else b) := by
        funext idx b
        simp
      simp [mapAtIdx, List.mapIdx_cons, hfun, ih]

/-- Helper for C1: the catch branch moves every stage to `error` with the
fixed narration, appends one failure line per stage log and exactly one
explanatory line to the global log, and clears the cancellation flag. -/
theorem reconcileFailure_spec (msg : String) (s : DashState) :
    (reconcileFailure msg s).agents = s.agents.map (fun a =>
        { a with status := .error, thinkingText := failedMarker,
                 logs := a.logs ++ [terminatedLine] }) ∧
    (∀ a ∈ (reconcileFailure msg s).agents,
        a.status = .error ∧ ∃ l, a.logs = l ++ [terminatedLine]) ∧
    (reconcileFailure msg s).allLogs = s.allLogs ++ [errorLine msg] ∧
    (reconcileFailure msg s).isAnalyzingRef = false := by
  refine ⟨rfl, ?_, rfl, rfl⟩
  intro a ha
  simp only [reconcileFailure, List.mem_map] at ha
  obtain ⟨b, _, rfl⟩ := ha
  exact ⟨rfl, b.logs, rfl⟩

/-- C1: every run whose network call ends in a failure outcome (transport
failure, non-success status, or unparsable success body) reaches a final
state where all three stages have status `error` regardless of the state
the simulator had produced, each stage's logs gain one appended failure
line, and exactly one explanatory error line is appended to the global
log. -/
theorem c1_failure_all_stages_error (o : NetOutcome) (msg : String)
    (hfail : failureMessage o = some msg) (s : DashState) :
    (applyOutcome o s).agents = s.agents.map (fun a =>
        { a with status := .error, thinkingText := failedMarker,
                 logs := a.logs ++ [terminatedLine] }) ∧
    (∀ a ∈ (applyOutcome o s).agents,
        a.status = .error ∧ ∃ l, a.logs = l ++ [terminatedLine]) ∧
    (applyOutcome o s).allLogs = s.allLogs ++ [errorLine msg] ∧
    (applyOutcome o s).isAnalyzingRef = false := by
  cases o with
  | transportFail m =>
      obtain rfl : m = msg := by simpa [failureMessage] using hfail
      exact reconcileFailure_spec _ s
  | badStatus r =>
      obtain rfl : errorMessageFor r = msg := by simpa [failureMessage] using hfail
      exact reconcileFailure_spec _ s
  | unparsableBody m =>
      obtain rfl : m = msg := by simpa [failureMessage] using hfail
      exact reconcileFailure_spec _ s
  | success d => simp [failureMessage] at hfail

/-- Witness for C1 at a concrete mid-run state and a transport failure. -/
theorem c1_witness :
    (applyOutcome (NetOutcome.transportFail "Failed to fetch") midRunState).allLogs
      = midRunState.allLogs ++ [errorLine "Failed to fetch"] :=
  (c1_failure_all_stages_error (NetOutcome.transportFail "Failed to fetch")
    "Failed to fetch" rfl midRunState).2.2.1

/-- C9: a success payload with no per-stage record list leaves every
stage record (status, narration, logs) untouched while still storing the
risk assessment in `result`; in particular a stage left `running` by the
simulator stays `running`. -/
theorem c9_success_no_agents_frame (d : SuccessData) (s : DashState)
    (h : d.agents = none) :
    (reconcileSuccess d s).agents = s.agents ∧
    (reconcileSuccess d s).result = some d.analysis := by
  cases hl : d.logs <;> simp [reconcileSuccess, h, hl]

/-- Witness for C9: the mid-run state with a `running` privacy stage is
left untouched by a payload without records. -/
theorem c9_witness :
    (reconcileSuccess { analysis := sampleAnalysis, agents := none, logs := none }
        midRunState).agents = midRunState.agents ∧
    (reconcileSuccess { analysis := sampleAnalysis, agents := none, logs := none }
        midRunState).result = some sampleAnalysis :=
  c9_success_no_agents_frame _ _ rfl

/-- C10: with no selected file or an empty claimed amount, the analyze
trigger is a no-op: the guard of line 178 returns before any state write,
network request, or simulator start (second component `false`). -/
theorem c10_guard_noop (s : DashState)
    (h : s.file = none ∨ s.claimedAmount = "") :
    handleAnalyze s = (s, false) := by
  rcases h with h | h <;> simp [handleAnalyze, h]

/-- Witness for C10 at a concrete state with an emptied amount field. -/
theorem c10_witness :
    handleAnalyze { midRunState with claimedAmount := "" }
      = ({ midRunState with claimedAmount := "" }, false) :=
  c10_guard_noop _ (Or.inr rfl)

/-- C7 counterexample: a non-success response whose body parses as JSON
but carries no `detail` field keeps the generic message even though the
raw response text is non-empty — the claim's precedence (raw text before
the generic message whenever `detail` is absent) fails here. -/
theorem c7_counterexample :
    noDetailResponse.text ≠ "" ∧
    errorMessageFor noDetailResponse = "HTTP Error 500: Internal Server Error" ∧
    errorMessageFor noDetailResponse ≠ noDetailResponse.text := by
  refine ⟨by decide, rfl, by decide⟩

/-- C7 amended: the recorded message is the parsed body's truthy `detail`
when present; the raw response text is used verbatim only when JSON
parsing of the body throws and the text is non-empty; in every other case
(body parses without a truthy `detail`, or the text is empty) the generic
"HTTP Error status: statusText" message is used. -/
theorem c7_error_message_rules (r : HttpResponse) :
    (∀ d, r.errJson = some (some d) → d ≠ "" → errorMessageFor r = d) ∧
    (r.errJson = none → r.text ≠ "" → errorMessageFor r = r.text) ∧
    (r.errJson = some none → errorMessageFor r = genericMessage r) ∧
    (r.errJson = some (some "") → errorMessageFor r = genericMessage r) ∧
    (r.errJson = none → r.text = "" → errorMessageFor r = genericMessage r) := by
  refine ⟨?_, ?_, ?_, ?_, ?_⟩
  · intro d hd hne
    simp [errorMessageFor, hd, hne]
  · intro hj ht
    simp [errorMessageFor, hj, ht]
  · intro hj
    simp [errorMessageFor, hj]
  · intro hj
    simp [errorMessageFor, hj]
  · intro hj ht
    simp [errorMessageFor, hj, ht]

/-- Witness for C7 amended at a concrete structured error response. -/
theorem c7_witness :
    errorMessageFor detailResponse = "Invalid image" :=
  (c7_error_message_rules detailResponse).1 "Invalid image" rfl (by decide)

/-- C5 counterexample: triggering a new run from a state in which the
previous run's simulator is still mid-dwell (its loop has not yet reset
the active index) starts the run with `currentAgentIndex` still 1: the
reset of `handleAnalyze` (lines 180-184) never writes
`currentAgentIndex`, so the claimed "activeStageIndex equal to none at
run start, irrespective of the previous run's state" fails. -/
theorem c5_counterexample :
    (handleAnalyze staleIndexState).2 = true ∧
    (handleAnalyze staleIndexState).1.currentAgentIndex ≠ -1 := by
  refine ⟨rfl, by decide⟩

/-- C5 amended: every accepted analyze trigger resets all three stages to
`pending` with empty logs and empty narration, empties the global log,
clears the stored result, and raises the in-progress flags — but it does
not write `activeStageIndex`, which keeps its previous value (it equals
"none" only when the previous simulator loop had already exited). -/
theorem c5_trigger_reset (s : DashState)
    (h : s.file.isSome = true ∧ s.claimedAmount ≠ "") :
    (handleAnalyze s).2 = true ∧
    (handleAnalyze s).1.agents = s.agents.map (fun a =>
        { a with status := .pending, logs := [], thinkingText := "" }) ∧
    (∀ a ∈ (handleAnalyze s).1.agents,
        a.status = .pending ∧ a.logs = [] ∧ a.thinkingText = "") ∧
    (handleAnalyze s).1.allLogs = [] ∧
    (handleAnalyze s).1.result = none ∧
    (handleAnalyze s).1.isAnalyzing = true ∧
    (handleAnalyze s).1.isAnalyzingRef = true ∧
    (handleAnalyze s).1.currentAgentIndex = s.currentAgentIndex := by
  obtain ⟨hf, ha⟩ := h
  obtain ⟨v, hv⟩ := Option.isSome_iff_exists.mp hf
  have hcond : (s.file.isNone || decide (s.claimedAmount = "")) = false := by
    simp [hv, ha]
  have hH : handleAnalyze s
      = ({ s with
           isAnalyzing := true,
           isAnalyzingRef := true,
           result := none,
           allLogs := [],
           agents := s.agents.map (fun a =>
             { a with status := .pending, logs := [], thinkingText := "" }) },
          true) := by
    simp only [handleAnalyze, hcond, Bool.false_eq_true, if_false]
  rw [hH]
  refine ⟨rfl, rfl, ?_, rfl, rfl, rfl, rfl, rfl⟩
  intro a haa
  simp only [List.mem_map] at haa
  obtain ⟨b, _, rfl⟩ := haa
  exact ⟨rfl, rfl, rfl⟩

/-- Witness for C5 amended at the stale-index state. -/
theorem c5_witness :
    (handleAnalyze staleIndexState).2 = true ∧
    (handleAnalyze staleIndexState).1.allLogs = [] ∧
    (handleAnalyze staleIndexState).1.currentAgentIndex
      = staleIndexState.currentAgentIndex := by
  have h := c5_trigger_reset staleIndexState ⟨rfl, by decide⟩
  exact ⟨h.1, h.2.2.2.1, h.2.2.2.2.2.2.2⟩

/-- Helper for C2: on a success payload carrying a record list, the
stages array is rewritten pointwise by the first-match rule, regardless
of the optional global log list. -/
theorem reconcileSuccess_agents_eq (s : DashState) (d : SuccessData)
    (recs : List BackendAgent) (hag : d.agents = some recs) :
    (reconcileSuccess d s).agents = s.agents.map (fun (a : Agent) =>
      match recs.find? (fun ba => matchesHint ba a.id) with
      | some ba =>
          { a with status := .complete, logs := ba.logs.getD [],
                   thinkingText := doneMarker }
      | none => a) := by
  cases hl : d.logs <;> simp [reconcileSuccess, hag, hl]

/-- C2: for a success payload with a per-stage record list, every stage
whose identifier occurs in some record's lowercased name hint ends
`complete` with its logs replaced by the first matching record's logs
(defaulted to empty when the record carries none) and the done marker as
narration, while every stage with no matching record is left exactly as
the simulator last wrote it — in particular it is never reset to
`pending`. -/
theorem c2_success_stage_matching (s : DashState) (d : SuccessData)
    (recs : List BackendAgent) (hag : d.agents = some recs)
    (i : Nat) (hi : i < s.agents.length) :
    ((∃ ba ∈ recs, matchesHint ba (s.agents.getD i default).id) →
        ∃ ba, recs.find? (fun b => matchesHint b (s.agents.getD i default).id)
            = some ba ∧
          ((reconcileSuccess d s).agents.getD i default).status = .complete ∧
          ((reconcileSuccess d s).agents.getD i default).logs = ba.logs.getD [] ∧
          ((reconcileSuccess d s).agents.getD i default).thinkingText = doneMarker) ∧
    ((∀ ba ∈ recs, ¬ matchesHint ba (s.agents.getD i default).id) →
        (reconcileSuccess d s).agents.getD i default = s.agents.getD i default) := by
  have hAg := reconcileSuccess_agents_eq s d recs hag
  have hi' : i < (reconcileSuccess d s).agents.length := by
    rw [hAg, List.length_map]
    exact hi
  have hgd : s.agents.getD i default = s.agents[i] := List.getD_eq_getElem s.agents default hi
  have hgd' : (reconcileSuccess d s).agents.getD i default
      = (reconcileSuccess d s).agents[i] :=
    List.getD_eq_getElem (reconcileSuccess d s).agents default hi'
  have hmap : (reconcileSuccess d s).agents[i]
      = (fun (a : Agent) =>
          match recs.find? (fun ba => matchesHint ba a.id) with
          | some ba =>
              { a with status := .complete, logs := ba.logs.getD [],
                       thinkingText := doneMarker }
          | none => a) (s.agents[i]) := by
    simp only [hAg]
    exact List.getElem_map _
  constructor
  · intro hex
    have hsome : (recs.find? (fun b => matchesHint b (s.agents.getD i default).id)).isSome := by
      rw [List.find?_isSome]
      simpa using hex
    obtain ⟨ba, hba⟩ := Option.isSome_iff_exists.mp hsome
    refine ⟨ba, hba, ?_, ?_, ?_⟩ <;>
      · rw [hgd', hmap]
        rw [hgd] at hba
        simp only [hba]
  · intro hnone
    have hfn : recs.find? (fun b => matchesHint b (s.agents.getD i default).id) = none := by
      rw [List.find?_eq_none]
      simpa using hnone
    rw [hgd', hmap, hgd]
    rw [hgd] at hfn
    simp only [hfn]

/-- Witness for C2: with one record matching only the `meta` stage, stage
0 completes with the record's logs and the `running` privacy stage is
left untouched. -/
theorem c2_witness :
    ((reconcileSuccess sampleSuccess midRunState).agents.getD 0 default).status
        = .complete ∧
    (reconcileSuccess sampleSuccess midRunState).agents.getD 1 default
        = midRunState.agents.getD 1 default := by
  have h0 := c2_success_stage_matching midRunState sampleSuccess sampleRecs rfl 0
    (by decide)
  have h1 := c2_success_stage_matching midRunState sampleSuccess sampleRecs rfl 1
    (by decide)
  obtain ⟨ba, hfind, hst, hlogs, hth⟩ := h0.1 (by decide)
  exact ⟨hst, h1.2 (by decide)⟩

/-- Helper for C3: the dwell loop exits no later than any iteration whose
exit condition holds, provided the fuel reaches it. -/
theorem dwellLoop_le_of_cond (waitTime : Nat) (cancel : Nat → Bool) :
    ∀ (fuel k m : Nat), k ≤ m → m ≤ k + fuel →
      (waitTime ≤ 100 * m ∨ cancel (100 * m) = true) →
      dwellLoop waitTime cancel fuel k ≤ m := by
  intro fuel
  induction fuel with
  | zero =>
      intro k m hkm hmk _
      have hme : m = k := Nat.le_antisymm (by simpa using hmk) hkm
      simp [dwellLoop, hme]
  | succ fuel ih =>
      intro k m hkm hmk hcond
      by_cases hk : (waitTime ≤ 100 * k)
      · simp [dwellLoop, hk]
        exact hkm
      · by_cases hck : cancel (100 * k) = true
        · simp [dwellLoop, hck]
          exact hkm
        · have hne : k ≠ m := by
            rintro rfl
            rcases hcond with h1 | h2
            · exact hk h1
            · exact hck h2
          have hkm' : k + 1 ≤ m := Nat.lt_of_le_of_ne hkm hne
          have hstep : dwellLoop waitTime cancel (fuel + 1) k
              = dwellLoop waitTime cancel fuel (k + 1) := by
            simp [dwellLoop, hk, hck]
          rw [hstep]
          exact ih (k + 1) m hkm' (by omega) hcond

/-- C3: the dwell wait re-reads the cancellation flag every 100 ms on the
idealized clock, so once the flag is set (at time `c`, and monotonically
thereafter) the loop exits at a check time of at most `c + 100` ms — the
simulator performs no further dwell iteration, and hence no mutation
guarded by the post-dwell flag check, more than one polling interval
after cancellation. -/
theorem c3_poll_cancel_bound (waitTime c fuel : Nat) (cancel : Nat → Bool)
    (hmono : ∀ t u, t ≤ u → cancel t = true → cancel u = true)
    (hc : cancel c = true) (hfuel : c / 100 + 1 ≤ fuel) :
    100 * dwellLoop waitTime cancel fuel 0 ≤ c + 100 := by
  have hcm : cancel (100 * (c / 100 + 1)) = true := by
    apply hmono c _ _ hc
    omega
  have hle := dwellLoop_le_of_cond waitTime cancel fuel 0 (c / 100 + 1)
    (Nat.zero_le _) (by omega) (Or.inr hcm)
  have h2 : 100 * (c / 100 + 1) ≤ c + 100 := by omega
  calc 100 * dwellLoop waitTime cancel fuel 0
      ≤ 100 * (c / 100 + 1) := Nat.mul_le_mul_left 100 hle
    _ ≤ c + 100 := h2

/-- Witness for C3: a 2.6 s dwell with cancellation arriving at 250 ms
exits by 350 ms. -/
theorem c3_witness :
    100 * dwellLoop 2600 (fun t => decide (250 ≤ t)) 30 0 ≤ 350 := by
  have h := c3_poll_cancel_bound 2600 250 30 (fun t => decide (250 ≤ t))
    (by
      intro t u htu ht
      simp only [decide_eq_true_eq] at ht ⊢
      omega)
    (by decide) (by decide)
  simpa using h

/-- C4: when the cancellation flag flips during the dwell of stage `i`
(the loop-head check of stage `i` still read true, the post-dwell check
reads false), the simulator loop exits leaving stage `i` in `running`
status, never appends stage `i`'s "task completed" line, leaves every
later stage `pending`, and resets the active index to -1; when the flag
is never cleared, every stage ends `complete` with the fixed done
marker. -/
theorem c4_cancel_mid_dwell (i : Fin 3) :
    (((simulateAgentProgress (fun n => decide (n < 2 * i.val + 1)) initialAgents
        runStartState).2.agents.getD i.val default).status = .running) ∧
    (completeLine (initialAgents.getD i.val default)
        ∉ (simulateAgentProgress (fun n => decide (n < 2 * i.val + 1)) initialAgents
            runStartState).2.allLogs) ∧
    (∀ j : Fin 3, i.val < j.val →
        ((simulateAgentProgress (fun n => decide (n < 2 * i.val + 1)) initialAgents
            runStartState).2.agents.getD j.val default).status = .pending) ∧
    ((simulateAgentProgress (fun n => decide (n < 2 * i.val + 1)) initialAgents
        runStartState).2.currentAgentIndex = -1) ∧
    (∀ j : Fin 3,
        ((simulateAgentProgress (fun _ => true) initialAgents
            runStartState).2.agents.getD j.val default).status = .complete ∧
        ((simulateAgentProgress (fun _ => true) initialAgents
            runStartState).2.agents.getD j.val default).thinkingText = doneMarker) := by
  fin_cases i <;> exact (by decide)

/-- Witness for C4: cancelling during stage 1's dwell leaves stage 2
pending. -/
theorem c4_witness :
    ((simulateAgentProgress (fun n => decide (n < 2 * (1 : Fin 3).val + 1))
        initialAgents runStartState).2.agents.getD (2 : Fin 3).val default).status
      = .pending :=
  (c4_cancel_mid_dwell 1).2.2.1 2 (by decide)

/-- Helper: updating one position raises a count by at most one. -/
theorem countP_mapAtIdx_le (p : Agent → Bool) (l : List Agent) (i : Nat)
    (f : Agent → Agent) :
    (mapAtIdx l i f).countP p ≤ l.countP p + 1 := by
  induction l generalizing i with
  | nil => simp [mapAtIdx]
  | cons a rest ih =>
      cases i with
      | zero =>
          simp only [mapAtIdx, List.countP_cons]
          have h1 : (if p (f a) = true then 1 else 0) ≤ 1 := by
            by_cases hfa : p (f a) = true <;> simp [hfa]
          omega
      | succ i =>
          simp only [mapAtIdx, List.countP_cons]
          have := ih i
          omega

/-- Helper: updating one position to something the predicate rejects
never raises the count. -/
theorem countP_mapAtIdx_not (p : Agent → Bool) (l : List Agent) (i : Nat)
    (f : Agent → Agent) (hf : ∀ a, p (f a) = false) :
    (mapAtIdx l i f).countP p ≤ l.countP p := by
  induction l generalizing i with
  | nil => simp [mapAtIdx]
  | cons a rest ih =>
      cases i with
      | zero =>
          simp only [mapAtIdx, List.countP_cons, hf a]
          have h1 : (if (false : Bool) = true then 1 else 0) = 0 := by simp
          omega
      | succ i =>
          simp only [mapAtIdx, List.countP_cons]
          have := ih i
          omega

/-- Helper: two updates at the same position compose. -/
theorem mapAtIdx_mapAtIdx (l : List Agent) (i : Nat) (f g : Agent → Agent) :
    mapAtIdx (mapAtIdx l i f) i g = mapAtIdx l i (fun a => g (f a)) := by
  induction l generalizing i with
  | nil => rfl
  | cons a rest ih =>
      cases i with
      | zero => rfl
      | succ i => simp [mapAtIdx, ih]

/-- Helper: two updates at the same position, the second rejected by the
predicate, keep the count bounded by the original. -/
theorem countP_mapAtIdx_same (p : Agent → Bool) (l : List Agent) (i : Nat)
    (f g : Agent → Agent) (hg : ∀ a, p (g a) = false) :
    (mapAtIdx (mapAtIdx l i f) i g).countP p ≤ l.countP p := by
  rw [mapAtIdx_mapAtIdx]
  exact countP_mapAtIdx_not p l i (fun a => g (f a)) (fun a => hg (f a))

/-- Helper: a pointwise map that never turns a rejected element into an
accepted one does not increase a count. -/
theorem countP_map_le_of_imp (p : Agent → Bool) (f : Agent → Agent)
    (hf : ∀ a, p (f a) = true → p a = true) :
    ∀ l : List Agent, (l.map f).countP p ≤ l.countP p := by
  intro l
  induction l with
  | nil => simp
  | cons a rest ih =>
      simp only [List.map_cons, List.countP_cons]
      have h1 : (if p (f a) = true then 1 else 0) ≤ (if p a = true then 1 else 0) := by
        by_cases hpa : p (f a) = true
        · simp [hpa, hf a hpa]
        · simp [hpa]
      omega

/-- Helper for C8: starting from a state with no `running` stage, every
observable state the simulator loop produces has at most one `running`
stage. -/
theorem simLoop_running_le_one (env : Nat → Bool) :
    ∀ (l : List Agent) (i : Nat) (s : DashState),
      runningCount s.agents = 0 →
      ∀ s' ∈ (simLoopAux env l i s).1, runningCount s'.agents ≤ 1 := by
  intro l
  induction l with
  | nil =>
      intro i s h0 s' hs'
      simp only [simLoopAux, List.mem_singleton] at hs'
      subst hs'
      show runningCount s.agents ≤ 1
      rw [h0]
      exact Nat.zero_le 1
  | cons info rest ih =>
      intro i s h0 s' hs'
      have hrun : runningCount (mapAtIdx s.agents i
          (fun a => { a with status := .running })) ≤ 1 := by
        have h := countP_mapAtIdx_le (fun a => a.status = .running) s.agents i
          (fun a => { a with status := .running })
        simp only [runningCount] at h0 ⊢
        omega
      have hdone : runningCount (mapAtIdx (mapAtIdx s.agents i
          (fun a => { a with status := .running })) i
          (fun a => { a with status := .complete, thinkingText := doneMarker })) = 0 := by
        have h := countP_mapAtIdx_same (fun a => a.status = .running) s.agents i
          (fun a => { a with status := .running })
          (fun a => { a with status := .complete, thinkingText := doneMarker })
          (by intro a; simp)
        simp only [runningCount] at h0 ⊢
        omega
      by_cases he : env (2 * i) = true
      · by_cases he2 : env (2 * i + 1) = true
        · simp only [simLoopAux, if_pos he, if_pos he2, List.mem_cons] at hs'
          rcases hs' with rfl | rfl | rfl | rfl | rfl | hmem
          · show runningCount s.agents ≤ 1
            rw [h0]
            exact Nat.zero_le 1
          · exact hrun
          · exact hrun
          · exact Nat.le_of_eq hdone |>.trans (Nat.zero_le 1) |>.trans (le_refl 1)
          · exact hdone ▸ Nat.zero_le 1
          · refine ih (i + 1) _ ?_ s' hmem
            exact hdone
        · simp only [simLoopAux, if_pos he, if_neg he2, List.mem_cons,
            List.not_mem_nil, or_false] at hs'
          rcases hs' with rfl | rfl | rfl | rfl
          · show runningCount s.agents ≤ 1
            rw [h0]
            exact Nat.zero_le 1
          · exact hrun
          · exact hrun
          · exact hrun
      · simp only [simLoopAux, if_neg he, List.mem_singleton] at hs'
        subst hs'
        show runningCount s.agents ≤ 1
        rw [h0]
        exact Nat.zero_le 1

/-- C8: while the simulator runs from a state without a `running` stage,
every observable intermediate state has at most one stage in `running`
status, and neither reconciliation path ever creates a `running` status:
the failure path leaves zero `running` stages and the success path never
increases their number. -/
theorem c8_at_most_one_running :
    (∀ (env : Nat → Bool) (captured : List Agent) (s : DashState),
        runningCount s.agents = 0 →
        ∀ s' ∈ (simulateAgentProgress env captured s).1,
          runningCount s'.agents ≤ 1) ∧
    (∀ msg s, runningCount (reconcileFailure msg s).agents = 0) ∧
    (∀ d s, runningCount (reconcileSuccess d s).agents ≤ runningCount s.agents) := by
  refine ⟨?_, ?_, ?_⟩
  · intro env captured s h0
    exact simLoop_running_le_one env captured 0 s h0
  · intro msg s
    show runningCount (s.agents.map _) = 0
    induction s.agents with
    | nil => rfl
    | cons a rest ih =>
        simp only [List.map_cons, runningCount, List.countP_cons] at ih ⊢
        simp [ih]
  · intro d s
    cases hag : d.agents with
    | none =>
        have hAg : (reconcileSuccess d s).agents = s.agents := by
          cases hl : d.logs <;> simp [reconcileSuccess, hag, hl]
        rw [hAg]
    | some recs =>
        rw [reconcileSuccess_agents_eq s d recs hag]
        refine countP_map_le_of_imp _ _ ?_ s.agents
        intro a h
        cases hfind : recs.find? (fun ba => matchesHint ba a.id) with
        | none =>
            simpa [hfind] using h
        | some ba =>
            rw [hfind] at h
            simp at h

/-- Witness for C8 at the run-start state under a never-cancelled run:
the final state of the trace keeps at most one `running` stage. -/
theorem c8_witness :
    runningCount runStartState.agents = 0 ∧
    runningCount ((simulateAgentProgress (fun _ => true) initialAgents
        runStartState).2.agents) ≤ 1 := by
  have h := c8_at_most_one_running.1 (fun _ => true) initialAgents runStartState
    (by decide)
  refine ⟨by decide, h _ ?_⟩
  decide

/-- Helper for C6: along the simulator's observable state trace, each
state's global log extends the previous one (the simulator only
appends). -/
theorem simLoop_log_chain (env : Nat → Bool) :
    ∀ (l : List Agent) (i : Nat) (s : DashState),
      List.Chain' (fun x y => ∃ t : List String, y.allLogs = x.allLogs ++ t)
        (s :: (simLoopAux env l i s).1) := by
  intro l
  induction l with
  | nil =>
      intro i s
      simp only [simLoopAux]
      exact List.chain'_cons.mpr ⟨⟨[], by simp⟩, List.chain'_singleton _⟩
  | cons info rest ih =>
      intro i s
      by_cases he : env (2 * i) = true
      · by_cases he2 : env (2 * i + 1) = true
        · simp only [simLoopAux, if_pos he, if_pos he2]
          refine List.chain'_cons.mpr ⟨⟨[], by simp⟩, ?_⟩
          refine List.chain'_cons.mpr ⟨⟨[], by simp⟩, ?_⟩
          refine List.chain'_cons.mpr ⟨⟨[initLine info], by simp⟩, ?_⟩
          refine List.chain'_cons.mpr ⟨⟨[], by simp⟩, ?_⟩
          refine List.chain'_cons.mpr ⟨⟨[completeLine info], by simp⟩, ?_⟩
          exact ih (i + 1) _
        · simp only [simLoopAux, if_pos he, if_neg he2]
          refine List.chain'_cons.mpr ⟨⟨[], by simp⟩, ?_⟩
          refine List.chain'_cons.mpr ⟨⟨[], by simp⟩, ?_⟩
          refine List.chain'_cons.mpr ⟨⟨[initLine info], by simp⟩, ?_⟩
          refine List.chain'_cons.mpr ⟨⟨[], by simp⟩, ?_⟩
          exact List.chain'_singleton _
      · simp only [simLoopAux, if_neg he]
        exact List.chain'_cons.mpr ⟨⟨[], by simp⟩, List.chain'_singleton _⟩

/-- C6 counterexample: a success payload carrying a `logs` list makes the
reconciler replace the global log wholesale (line 232), so the new log is
not an extension of the one the simulator had built — index 0 is reused
for a different line, refuting append-only monotonicity within the run. -/
theorem c6_counterexample :
    (reconcileSuccess { analysis := sampleAnalysis, agents := none, logs := some ["backend log"] }
        midRunState).allLogs = ["backend log"] ∧
    ¬ ∃ t : List String,
        (reconcileSuccess { analysis := sampleAnalysis, agents := none, logs := some ["backend log"] }
            midRunState).allLogs = midRunState.allLogs ++ t := by
  refine ⟨rfl, ?_⟩
  rintro ⟨t, ht⟩
  rw [show (reconcileSuccess { analysis := sampleAnalysis, agents := none, logs := some ["backend log"] }
      midRunState).allLogs = ["backend log"] from rfl] at ht
  have hlen := congrArg List.length ht
  simp [midRunState] at hlen

/-- C6 amended: within a run the global log is append-only for every
simulator mutation (each observable state's log extends the previous
one) and for the failure path (exactly one appended line), and the
success path preserves it when the payload has no `logs` list; but when
the payload carries a `logs` list the success path replaces the global
log wholesale with it, reusing indices. -/
theorem c6_log_append_only_amended :
    (∀ (env : Nat → Bool) (captured : List Agent) (s : DashState),
        List.Chain' (fun x y => ∃ t : List String, y.allLogs = x.allLogs ++ t)
          (s :: (simulateAgentProgress env captured s).1)) ∧
    (∀ msg s, (reconcileFailure msg s).allLogs = s.allLogs ++ [errorLine msg]) ∧
    (∀ d s, d.logs = none → (reconcileSuccess d s).allLogs = s.allLogs) ∧
    (∀ d s ls, d.logs = some ls → (reconcileSuccess d s).allLogs = ls) := by
  refine ⟨?_, ?_, ?_, ?_⟩
  · intro env captured s
    exact simLoop_log_chain env captured 0 s
  · intro msg s
    rfl
  · intro d s h
    cases hag : d.agents <;> simp [reconcileSuccess, h, hag]
  · intro d s ls h
    cases hag : d.agents <;> simp [reconcileSuccess, h, hag]

/-- Witness for C6 amended: a success payload without logs preserves the
mid-run global log. -/
theorem c6_witness :
    (reconcileSuccess { analysis := sampleAnalysis, agents := none, logs := none }
        midRunState).allLogs = midRunState.allLogs :=
  c6_log_append_only_amended.2.2.1 _ midRunState rfl
